import Mathlib

/-!
# Verification of the nats-server authentication/authorization core

Shallow embedding of `server/auth.go` (auth strategy dispatch, nkey
signature verification, bcrypt-or-plaintext secret comparison, permission
cloning and the unauthorized-subscription sweep), together with theorems
checking the natural-language specification against it.

Go pointers to structs are embedded as `Option`; Go maps built by
insertion are embedded as association lists whose lookup takes the most
recent binding (last write wins); Go byte slices are `List Nat`.  The
external libraries (`encoding/base64`, `nkeys`, `bcrypt`) are abstracted
as function parameters, collected in the `Crypto` structure, since their
code is not part of this repository.
-/

namespace NatsAuth

/-- Lookup in a Go map represented as the insertion sequence: the most
recent binding for the key wins, mirroring `m[k] = v` overwrite
semantics. -/
def mapFind {α : Type} (m : List (String × α)) (k : String) : Option α :=
  (m.reverse.find? (fun e => e.1 == k)).map (·.2)

/-- `SubjectPermission` from auth.go: an individual allow and deny list for
publish and subscribe authorizations.  Go's nil-vs-allocated slices are
`Option (List String)`. -/
structure SubjectPermission where
  Allow : Option (List String)
  Deny : Option (List String)
deriving Repr, DecidableEq

/-- `Permissions` from auth.go: the allowed subjects on a per publish or
subscribe basis.  The Go fields are `*SubjectPermission`. -/
structure Permissions where
  Publish : Option SubjectPermission
  Subscribe : Option SubjectPermission
deriving Repr, DecidableEq

/-- `(*SubjectPermission).clone` from auth.go, on the pointer (`Option`)
receiver.  In this pure value model the slice `make`+`copy` is the
identity on the list value; the aliasing content of cloning is made
explicit in the `HeapModel` namespace below. -/
def SubjectPermission.clone (p : Option SubjectPermission) : Option SubjectPermission :=
  match p with
  | none => none
  | some sp =>
    some { Allow := match sp.Allow with
            | none => none
            | some l => some l
           Deny := match sp.Deny with
            | none => none
            | some l => some l }

/-- `(*Permissions).clone` from auth.go, on the pointer (`Option`)
receiver. -/
def Permissions.clone (p : Option Permissions) : Option Permissions :=
  match p with
  | none => none
  | some pp =>
    some { Publish := match pp.Publish with
            | none => none
            | some sp => SubjectPermission.clone (some sp)
           Subscribe := match pp.Subscribe with
            | none => none
            | some sp => SubjectPermission.clone (some sp) }

/-- `NkeyUser` from auth.go: an nkey-based user record. -/
structure NkeyUser where
  Nkey : String
  Permissions : Option Permissions
deriving Repr, DecidableEq

/-- `User` from auth.go: a username/password user record. -/
structure User where
  Username : String
  Password : String
  Permissions : Option Permissions
deriving Repr, DecidableEq

/-- `(*User).clone` from auth.go. -/
def User.clone (u : Option User) : Option User :=
  match u with
  | none => none
  | some uu => some { uu with Permissions := Permissions.clone uu.Permissions }

/-- `(*NkeyUser).clone` from auth.go. -/
def NkeyUser.clone (n : Option NkeyUser) : Option NkeyUser :=
  match n with
  | none => none
  | some nn => some { nn with Permissions := Permissions.clone nn.Permissions }

/-- The `bcryptPrefix` constant `"$2a$"` from auth.go (renamed: the Go
name's tail collides with a reserved word here). -/
def bcryptMarker : String := "$2a$"

/-- `isBcrypt` from auth.go: whether the given password or token is
bcrypted, i.e. `strings.HasPrefix(password, bcryptPrefix)`, embedded as
a character-list prefix test. -/
def isBcrypt (password : String) : Bool :=
  bcryptMarker.data.isPrefixOf password.data

/-- `comparePasswords` from auth.go.  The bcrypt library call
`bcrypt.CompareHashAndPassword` is abstracted as the function argument
`bcryptCompare` (true = hash matches). -/
def comparePasswords (bcryptCompare : String → String → Bool)
    (serverPassword clientPassword : String) : Bool :=
  if isBcrypt serverPassword then
    bcryptCompare serverPassword clientPassword
  else if serverPassword != clientPassword then
    false
  else
    true

/-- The abstracted external cryptographic collaborators used by the nkey
branch of `isClientAuthorized` and by `comparePasswords`:
`base64Decode` for `base64.StdEncoding.DecodeString` (`none` = decode
error), `fromPublicKey` for `nkeys.FromPublicKey` (`none` = error),
`verify` for `(KeyPair).Verify` (true = signature valid), and
`bcryptCompare` for `bcrypt.CompareHashAndPassword` (true = match).
`K` is the type of decoded public keys. -/
structure Crypto (K : Type) where
  base64Decode : String → Option (List Nat)
  fromPublicKey : String → Option K
  verify : K → List Nat → List Nat → Bool
  bcryptCompare : String → String → Bool

/-- `clientOpts` fields consumed by auth.go (the wire-decoded CONNECT
options). -/
structure clientOpts where
  Username : String := ""
  Password : String := ""
  Authorization : String := ""
  Nkey : String := ""
  Sig : String := ""
deriving Repr, DecidableEq

/-- A subscription as auth.go consumes it: its subject and sid. -/
structure subscription where
  subject : String
  sid : String
deriving Repr, DecidableEq

/-- Connection type tags from the `switch c.typ` in
`checkAuthorization`. -/
inductive ClientType where
  | CLIENT
  | ROUTER
  | OTHER
deriving Repr, DecidableEq

/-- The `client` fields consumed by auth.go: connection type, decoded
CONNECT options, the per-connection nonce bytes, the bound permission
set, and the sid-indexed subscription map. -/
structure client where
  typ : ClientType := .CLIENT
  opts : clientOpts := {}
  nonce : List Nat := []
  perms : Option Permissions := none
  subs : List (String × subscription) := []

/-- Cluster options consumed by `isRouterAuthorized`. -/
structure ClusterOpts where
  Username : String := ""
  Password : String := ""

/-- The `Options` fields consumed by auth.go.  The custom authenticators
(`Authentication` interface values) are embedded as boolean-valued
callbacks on the client, `none` when unconfigured. -/
structure Options where
  CustomClientAuthentication : Option (client → Bool) := none
  CustomRouterAuthentication : Option (client → Bool) := none
  Nkeys : Option (List NkeyUser) := none
  Users : Option (List User) := none
  Username : String := ""
  Password : String := ""
  Authorization : String := ""
  Cluster : ClusterOpts := {}

/-- The `Server` fields consumed by auth.go: the options, the nkey and
user maps, and `info.AuthRequired`.  The Go maps `s.nkeys`/`s.users` are
association lists under `mapFind`, `none` when the map is nil. -/
structure Server where
  opts : Options := {}
  nkeys : Option (List (String × NkeyUser)) := none
  users : Option (List (String × User)) := none
  infoAuthRequired : Bool := false

/-- `configureAuthorization` from auth.go (the `s.opts == nil` early
return cannot arise here since the embedded `Server` always carries its
options).  Builds the nkey/user maps by insertion and sets
`info.AuthRequired`. -/
def configureAuthorization (s : Server) : Server :=
  let opts := s.opts
  if opts.CustomClientAuthentication.isSome then
    { s with infoAuthRequired := true }
  else if opts.Nkeys.isSome || opts.Users.isSome then
    { s with
      nkeys := match opts.Nkeys with
        | none => s.nkeys
        | some l => some (l.map (fun u => (u.Nkey, u)))
      users := match opts.Users with
        | none => s.users
        | some l => some (l.map (fun u => (u.Username, u)))
      infoAuthRequired := true }
  else if opts.Username != "" || opts.Authorization != "" then
    { s with infoAuthRequired := true }
  else
    { s with users := none, infoAuthRequired := false }

/-- Modelled from the spec: `client.RegisterUser` (client.go is not part
of src).  Per §4.5/§4.4, on acceptance the matched record's PermissionSet
is deep-cloned and attached to the connection before control returns. -/
def registerUser (c : client) (u : User) : client :=
  { c with perms := Permissions.clone u.Permissions }

/-- The nonce-signature verification block of `isClientAuthorized`
(auth.go lines 251-265): reject an empty signature, base64-decode the
signature, decode the public key, verify the signature over the raw
nonce bytes; any failure is `false`. -/
def verifyNkeySig {K : Type} (cr : Crypto K) (nkeyClaim sigOpt : String)
    (nonce : List Nat) : Bool :=
  if sigOpt == "" then false
  else match cr.base64Decode sigOpt with
    | none => false
    | some sig =>
      match cr.fromPublicKey nkeyClaim with
      | none => false
      | some pub => cr.verify pub nonce sig

/-- `isClientAuthorized` from auth.go.  The lock staging is flattened:
the Go code looks up `nkey`/`user` under the lock and then branches on
`nkey != nil` / `user != nil`, which is the nested match below.  Returns
the accept/reject boolean together with the (possibly `RegisterUser`-ed)
client. -/
def isClientAuthorized {K : Type} (cr : Crypto K) (s : Server) (c : client) :
    Bool × client :=
  match s.opts.CustomClientAuthentication with
  | some check => (check c, c)
  | none =>
    if !s.infoAuthRequired then (true, c)
    else if s.nkeys.isSome && c.opts.Nkey != "" then
      match mapFind (s.nkeys.getD []) c.opts.Nkey with
      | none => (false, c)
      | some _ => (verifyNkeySig cr c.opts.Nkey c.opts.Sig c.nonce, c)
    else if s.users.isSome && c.opts.Username != "" then
      match mapFind (s.users.getD []) c.opts.Username with
      | none => (false, c)
      | some user =>
        if comparePasswords cr.bcryptCompare user.Password c.opts.Password then
          (true, registerUser c user)
        else (false, c)
    else if s.opts.Authorization != "" then
      (comparePasswords cr.bcryptCompare s.opts.Authorization c.opts.Authorization, c)
    else if s.opts.Username != "" then
      if s.opts.Username != c.opts.Username then (false, c)
      else (comparePasswords cr.bcryptCompare s.opts.Password c.opts.Password, c)
    else (false, c)

/-- `isRouterAuthorized` from auth.go: custom route authenticator if
configured, else accept when no cluster username is set, else exact
username match plus `comparePasswords` on the password. -/
def isRouterAuthorized (bcryptCompare : String → String → Bool) (s : Server)
    (c : client) : Bool :=
  match s.opts.CustomRouterAuthentication with
  | some check => check c
  | none =>
    if s.opts.Cluster.Username == "" then true
    else if s.opts.Cluster.Username != c.opts.Username then false
    else if !comparePasswords bcryptCompare s.opts.Cluster.Password c.opts.Password then false
    else true

/-- `checkAuthorization` from auth.go: dispatch on connection type;
unknown types are rejected. -/
def checkAuthorization {K : Type} (cr : Crypto K) (s : Server) (c : client) : Bool :=
  match c.typ with
  | .CLIENT => (isClientAuthorized cr s c).1
  | .ROUTER => isRouterAuthorized cr.bcryptCompare s c
  | .OTHER => false

/-! ## Strategy dispatch abstraction

To state strategy-exclusivity of `isClientAuthorized`, we name the
branches of its decision chain.  `clientAuthStrategy` computes which
branch fires (from the configuration and the presented option fields
only), and `evalStrategy` evaluates a branch through per-strategy
evaluators whose argument lists pin down exactly which inputs that
strategy may consult. -/

/-- The strategies of §4.5, plus the no-auth accept and the final
reject. -/
inductive AuthStrategy where
  | custom
  | noAuth
  | nkeyStrategy
  | userTable
  | token
  | userPass
  | reject
deriving Repr, DecidableEq

/-- Which branch of `isClientAuthorized` fires, following the source's
condition chain. -/
def clientAuthStrategy (s : Server) (c : client) : AuthStrategy :=
  if s.opts.CustomClientAuthentication.isSome then .custom
  else if !s.infoAuthRequired then .noAuth
  else if s.nkeys.isSome && c.opts.Nkey != "" then .nkeyStrategy
  else if s.users.isSome && c.opts.Username != "" then .userTable
  else if s.opts.Authorization != "" then .token
  else if s.opts.Username != "" then .userPass
  else .reject

/-- The nkey branch body: consult only the nkey map and the connection's
nkey claim, signature and nonce. -/
def evalNkeyStrategy {K : Type} (cr : Crypto K) (m : List (String × NkeyUser))
    (nkeyClaim sigOpt : String) (nonce : List Nat) : Bool :=
  match mapFind m nkeyClaim with
  | none => false
  | some _ => verifyNkeySig cr nkeyClaim sigOpt nonce

/-- The per-user-table branch body: consult only the user map and the
presented username and password. -/
def evalUserStrategy (bcryptCompare : String → String → Bool)
    (m : List (String × User)) (uname pword : String) : Bool :=
  match mapFind m uname with
  | none => false
  | some user => comparePasswords bcryptCompare user.Password pword

/-- The shared-token branch body: consult only the configured token and
the presented token. -/
def evalTokenStrategy (bcryptCompare : String → String → Bool)
    (authorization tokenOpt : String) : Bool :=
  comparePasswords bcryptCompare authorization tokenOpt

/-- The shared username/password branch body: consult only the configured
pair and the presented pair. -/
def evalUserPassStrategy (bcryptCompare : String → String → Bool)
    (username password uname pword : String) : Bool :=
  if username != uname then false
  else comparePasswords bcryptCompare password pword

/-- Evaluate the chosen strategy on its own inputs. -/
def evalStrategy {K : Type} (cr : Crypto K) (s : Server) (c : client) :
    AuthStrategy → Bool
  | .custom => (s.opts.CustomClientAuthentication.getD (fun _ => false)) c
  | .noAuth => true
  | .nkeyStrategy => evalNkeyStrategy cr (s.nkeys.getD []) c.opts.Nkey c.opts.Sig c.nonce
  | .userTable => evalUserStrategy cr.bcryptCompare (s.users.getD []) c.opts.Username c.opts.Password
  | .token => evalTokenStrategy cr.bcryptCompare s.opts.Authorization c.opts.Authorization
  | .userPass => evalUserPassStrategy cr.bcryptCompare s.opts.Username s.opts.Password c.opts.Username c.opts.Password
  | .reject => false

/-! ## Subscription sweep -/

/-- Modelled from the spec: `client.canSubscribe` (client.go is not part
of src).  Per §4.4: absent filter permits by default; a deny-list match
rejects; otherwise a present allow list must match; an absent allow list
permits.  Subject pattern matching is delegated to the collaborator
`matchFn pattern subject`. -/
def canSubscribe (matchFn : String → String → Bool) (perms : Option Permissions)
    (subj : String) : Bool :=
  match perms with
  | none => true
  | some p =>
    match p.Subscribe with
    | none => true
    | some sp =>
      if (sp.Deny.getD []).any (fun pat => matchFn pat subj) then false
      else match sp.Allow with
        | none => true
        | some al => al.any (fun pat => matchFn pat subj)

/-- The state read and written by `removeUnauthorizedSubs`: the
connection's bound permissions `c.perms`, its sid-indexed subscription
map `c.subs`, the shared routing index `s.sl` (as the list of registered
subscriptions), and the stream of permissions-violation notices sent via
`c.sendErr`, each recorded as the (subject, sid) pair the message
names. -/
structure SweepState where
  perms : Option Permissions
  subs : List (String × subscription)
  sl : List subscription
  errs : List (String × String)
deriving Repr, DecidableEq

/-- One iteration of the sweep loop of `removeUnauthorizedSubs`: if the
snapshot entry no longer passes `canSubscribe`, remove it from the
routing index (`s.sl.Remove(sub)`), delete its sid from the connection's
map, and send the violation notice. -/
def sweepStep (matchFn : String → String → Bool) (st : SweepState)
    (e : String × subscription) : SweepState :=
  if canSubscribe matchFn st.perms e.2.subject then st
  else
    { st with
      subs := st.subs.filter (fun e2 => e2.1 != e.1)
      sl := st.sl.erase e.2
      errs := st.errs ++ [(e.2.subject, e.2.sid)] }

/-- `removeUnauthorizedSubs` from auth.go: return immediately when no
permissions are bound; otherwise snapshot the subscription map and sweep
it with `sweepStep`. -/
def removeUnauthorizedSubs (matchFn : String → String → Bool)
    (st : SweepState) : SweepState :=
  match st.perms with
  | none => st
  | some _ =>
    let snapshot := st.subs
    snapshot.foldl (sweepStep matchFn) st

end NatsAuth

namespace HeapModel

/-!
## Heap model of permission cloning

Go slices alias a backing array; `(*SubjectPermission).clone` allocates
fresh arrays via `make` and copies the contents.  To state the
no-aliasing property of the spec, this namespace re-embeds the clone
functions over an explicit store: a `Ref` is an allocated cell holding a
`List String`, and slice fields become `Option Nat`. -/

/-- The store: cell contents plus the next fresh address. -/
structure Store where
  mem : Nat → List String
  next : Nat

/-- Read a cell. -/
def Store.read (st : Store) (r : Nat) : List String := st.mem r

/-- Overwrite a cell (a mutation of a Go slice's contents). -/
def Store.write (st : Store) (r : Nat) (v : List String) : Store :=
  { st with mem := fun r2 => if r2 = r then v else st.mem r2 }

/-- Allocate a fresh cell holding `v` (Go `make` + `copy`). -/
def Store.alloc (st : Store) (v : List String) : Store × Nat :=
  ({ mem := fun r2 => if r2 = st.next then v else st.mem r2,
     next := st.next + 1 }, st.next)

/-- `SubjectPermission` with its slice fields as store references. -/
structure SubjectPermission where
  Allow : Option Nat
  Deny : Option Nat
deriving Repr, DecidableEq

/-- `Permissions` over the heap model. -/
structure Permissions where
  Publish : Option SubjectPermission
  Subscribe : Option SubjectPermission
deriving Repr, DecidableEq

/-- `(*SubjectPermission).clone` over the heap model: nil stays nil, a
present slice gets a freshly allocated copy of its contents. -/
def SubjectPermission.clone (st : Store) (p : Option SubjectPermission) :
    Store × Option SubjectPermission :=
  match p with
  | none => (st, none)
  | some sp =>
    let a := match sp.Allow with
      | none => (st, (none : Option Nat))
      | some r =>
        let x := st.alloc (st.read r)
        (x.1, some x.2)
    let d := match sp.Deny with
      | none => (a.1, (none : Option Nat))
      | some r =>
        let x := a.1.alloc (a.1.read r)
        (x.1, some x.2)
    (d.1, some { Allow := a.2, Deny := d.2 })

/-- `(*Permissions).clone` over the heap model. -/
def Permissions.clone (st : Store) (p : Option Permissions) :
    Store × Option Permissions :=
  match p with
  | none => (st, none)
  | some pp =>
    let a := match pp.Publish with
      | none => (st, (none : Option SubjectPermission))
      | some sp => SubjectPermission.clone st (some sp)
    let b := match pp.Subscribe with
      | none => (a.1, (none : Option SubjectPermission))
      | some sp => SubjectPermission.clone a.1 (some sp)
    (b.1, some { Publish := a.2, Subscribe := b.2 })

/-- The references (backing arrays) a subject permission owns. -/
def refsSP : Option SubjectPermission → List Nat
  | none => []
  | some sp => sp.Allow.toList ++ sp.Deny.toList

/-- The references (backing arrays) a permission set owns. -/
def refsPerms : Option Permissions → List Nat
  | none => []
  | some pp => refsSP pp.Publish ++ refsSP pp.Subscribe

/-- The value readout of a subject permission: the contents behind each
present slice. -/
def readSP (st : Store) : Option SubjectPermission →
    Option (Option (List String) × Option (List String))
  | none => none
  | some sp => some (sp.Allow.map st.read, sp.Deny.map st.read)

/-- The value readout of a permission set. -/
def readPerms (st : Store) : Option Permissions →
    Option (Option (Option (List String) × Option (List String)) ×
            Option (Option (List String) × Option (List String)))
  | none => none
  | some pp => some (readSP st pp.Publish, readSP st pp.Subscribe)

/-- All owned references are allocated (below the store's fresh
frontier). -/
@[reducible] def validPerms (st : Store) (p : Option Permissions) : Prop :=
  ∀ r ∈ refsPerms p, r < st.next

end HeapModel

namespace NatsAuth

/-! ## Theorems -/

/-- Claim C3: `comparePasswords(stored, presented)` uses bcrypt
verification exactly when `stored` has the `"$2a$"` marker and exact
string equality otherwise (no downgrade path); consequently, for a
plaintext secret `pw` and its bcrypt hash `hash` (under the hypothesis
that the abstracted bcrypt check accepts exactly the original
plaintext), it returns true iff `presented` equals `pw`, whether
`stored` is `pw` or `hash`; in particular presenting the hash itself
against the hashed stored secret is rejected. -/
theorem comparePasswords_hash_equivalence
    (bc : String → String → Bool) (pw hash : String)
    (hplain : isBcrypt pw = false)
    (hhash : isBcrypt hash = true)
    (hbc : ∀ q, bc hash q = true ↔ q = pw)
    (hne : hash ≠ pw) :
    (∀ stored presented, comparePasswords bc stored presented =
      if isBcrypt stored then bc stored presented else stored == presented) ∧
    (∀ q, comparePasswords bc pw q = true ↔ q = pw) ∧
    (∀ q, comparePasswords bc hash q = true ↔ q = pw) ∧
    comparePasswords bc hash hash = false := by
  have hdisp : ∀ stored presented, comparePasswords bc stored presented =
      if isBcrypt stored then bc stored presented else stored == presented := by
    intro stored presented
    unfold comparePasswords
    cases h : isBcrypt stored
    · cases h2 : stored == presented <;> simp [bne, h, h2]
    · simp [h]
  refine ⟨hdisp, ?_, ?_, ?_⟩
  · intro q
    rw [hdisp, hplain]
    simp only [Bool.false_eq_true, if_false, beq_iff_eq]
    exact eq_comm
  · intro q
    rw [hdisp, hhash]
    simpa using hbc q
  · rw [hdisp, hhash]
    by_contra h
    simp only [Bool.not_eq_false] at h
    exact hne ((hbc hash).mp h)

/-- Witness for C3 at a concrete plaintext/hash pair and a concrete
bcrypt oracle. -/
theorem comparePasswords_hash_equivalence_witness :
    (∀ q, comparePasswords (fun st q => st == "$2a$h" && q == "s") "s" q = true ↔ q = "s") ∧
    (∀ q, comparePasswords (fun st q => st == "$2a$h" && q == "s") "$2a$h" q = true ↔ q = "s") ∧
    comparePasswords (fun st q => st == "$2a$h" && q == "s") "$2a$h" "$2a$h" = false := by
  have h := comparePasswords_hash_equivalence
    (fun st q => st == "$2a$h" && q == "s") "s" "$2a$h"
    (by decide) (by decide)
    (fun q => by simp) (by decide)
  exact ⟨h.2.1, h.2.2.1, h.2.2.2⟩

/-- Claim C9: when the connection has no bound permission set,
`removeUnauthorizedSubs` is a pure no-op: subscription map, routing
index and notice stream are all left unchanged, for any subscription
load. -/
theorem removeUnauthorizedSubs_nil_perms_noop
    (matchFn : String → String → Bool)
    (subs : List (String × subscription)) (sl : List subscription)
    (errs : List (String × String)) :
    removeUnauthorizedSubs matchFn
      { perms := none, subs := subs, sl := sl, errs := errs } =
      { perms := none, subs := subs, sl := sl, errs := errs } := rfl

/-- Claim C10: with the single shared username/password strategy in
effect, a non-empty username and an empty plaintext password,
`configureAuthorization` turns authentication on, yet a client
presenting the matching username and an empty password is accepted,
because `comparePasswords` on a non-bcrypt stored secret is plain string
equality and `"" == ""`. -/
theorem sharedUserPass_empty_password_accepted {K : Type} (cr : Crypto K)
    (s : Server) (c : client)
    (h1 : s.opts.CustomClientAuthentication = none)
    (h2 : s.opts.Nkeys = none) (h3 : s.opts.Users = none)
    (h4 : s.opts.Username ≠ "") (h5 : s.opts.Password = "")
    (h6 : s.opts.Authorization = "")
    (h7 : s.nkeys = none) (h8 : s.users = none)
    (hc1 : c.opts.Username = s.opts.Username) (hc2 : c.opts.Password = "") :
    (configureAuthorization s).infoAuthRequired = true ∧
    (isClientAuthorized cr (configureAuthorization s) c).1 = true := by
  have hib : isBcrypt "" = false := by decide
  have hs : configureAuthorization s = { s with infoAuthRequired := true } := by
    unfold configureAuthorization
    simp [h1, h2, h3, h4]
  rw [hs]
  refine ⟨rfl, ?_⟩
  unfold isClientAuthorized
  simp [h1, h4, h6, h7, h8, hc1, hc2, h5, comparePasswords, hib]

/-- Claim C8: `isRouterAuthorized` delegates the whole decision to the
custom route authenticator when one is configured; otherwise it accepts
unconditionally when no cluster username is configured; otherwise it
accepts iff the presented username equals the cluster username and
`comparePasswords` accepts the presented password against the cluster
password. -/
theorem isRouterAuthorized_spec (bc : String → String → Bool) (s : Server)
    (c : client) :
    (∀ chk, s.opts.CustomRouterAuthentication = some chk →
      isRouterAuthorized bc s c = chk c) ∧
    (s.opts.CustomRouterAuthentication = none →
      ((s.opts.Cluster.Username = "" → isRouterAuthorized bc s c = true) ∧
       (s.opts.Cluster.Username ≠ "" →
         (isRouterAuthorized bc s c = true ↔
           (c.opts.Username = s.opts.Cluster.Username ∧
            comparePasswords bc s.opts.Cluster.Password c.opts.Password = true))))) := by
  unfold isRouterAuthorized
  refine ⟨fun chk hc => by simp [hc], fun hc => ⟨fun hu => by simp [hc, hu], ?_⟩⟩
  intro hu
  simp only [hc]
  have hne : (s.opts.Cluster.Username == "") = false := by
    simpa [beq_iff_eq] using hu
  rw [if_neg (by simp [hne])]
  by_cases he : s.opts.Cluster.Username = c.opts.Username
  · cases hcp : comparePasswords bc s.opts.Cluster.Password c.opts.Password <;>
      simp [he, hcp, eq_comm]
  · rw [if_pos (by simp [bne, beq_false_of_ne he])]
    simp only [Bool.false_eq_true, false_iff]
    rintro ⟨ha, -⟩
    exact he ha.symm

/-- Claim C7: after `configureAuthorization`, `info.AuthRequired` is true
iff at least one authentication strategy is configured (custom client
authenticator, nkey list, user list, single username, or shared token);
and whenever it is false, `isClientAuthorized` accepts every client
connection (for every credential material presented). -/
theorem configureAuthorization_authRequired_iff (s : Server) :
    ((configureAuthorization s).infoAuthRequired = true ↔
      (s.opts.CustomClientAuthentication.isSome = true ∨
       s.opts.Nkeys.isSome = true ∨ s.opts.Users.isSome = true ∨
       s.opts.Username ≠ "" ∨ s.opts.Authorization ≠ "")) ∧
    ((configureAuthorization s).infoAuthRequired = false →
      ∀ (K : Type) (cr : Crypto K) (c : client),
        (isClientAuthorized cr (configureAuthorization s) c).1 = true) := by
  by_cases h1 : s.opts.CustomClientAuthentication.isSome
  · constructor
    · simp [configureAuthorization, h1]
    · simp [configureAuthorization, h1]
  · by_cases h2 : s.opts.Nkeys.isSome || s.opts.Users.isSome
    · have hs : (configureAuthorization s).infoAuthRequired = true := by
        unfold configureAuthorization
        rw [if_neg (by simp [h1]), if_pos h2]
      constructor
      · simp only [hs, true_iff]
        rcases Bool.or_eq_true_iff.mp h2 with h | h
        · exact Or.inr (Or.inl h)
        · exact Or.inr (Or.inr (Or.inl h))
      · simp [hs]
    · by_cases h3 : s.opts.Username != "" || s.opts.Authorization != ""
      · have hs : (configureAuthorization s).infoAuthRequired = true := by
          unfold configureAuthorization
          rw [if_neg (by simp [h1]), if_neg (by simp [h2]), if_pos h3]
        constructor
        · simp only [hs, true_iff]
          rcases Bool.or_eq_true_iff.mp h3 with h | h
          · exact Or.inr (Or.inr (Or.inr (Or.inl (by simpa using h))))
          · exact Or.inr (Or.inr (Or.inr (Or.inr (by simpa using h))))
        · simp [hs]
      · have hcust : s.opts.CustomClientAuthentication = none :=
          Option.not_isSome_iff_eq_none.mp h1
        have hs : configureAuthorization s =
            { s with users := none, infoAuthRequired := false } := by
          unfold configureAuthorization
          rw [if_neg (by simp [h1]), if_neg (by simp [h2]), if_neg (by simp [h3])]
        constructor
        · rw [hs]
          simp only [Bool.false_eq_true, false_iff]
          push_neg
          simp only [Bool.or_eq_true] at h2 h3
          push_neg at h2 h3
          refine ⟨h1, h2.1, h2.2, by simpa using h3.1, by simpa using h3.2⟩
        · intro _ K cr c
          rw [hs]
          unfold isClientAuthorized
          simp [hcust]

/-- Shared dispatch lemma: the accept/reject result of
`isClientAuthorized` is the evaluation, on its own inputs, of the single
strategy selected by `clientAuthStrategy`. -/
theorem isClientAuthorized_eq_evalStrategy {K : Type} (cr : Crypto K)
    (s : Server) (c : client) :
    (isClientAuthorized cr s c).1 = evalStrategy cr s c (clientAuthStrategy s c) := by
  unfold isClientAuthorized clientAuthStrategy
  cases hcust : s.opts.CustomClientAuthentication with
  | some check => simp [evalStrategy, hcust]
  | none =>
    simp only [Option.isSome_none, Bool.false_eq_true, if_false]
    cases har : s.infoAuthRequired with
    | false => simp [evalStrategy]
    | true =>
      simp only [Bool.not_true, Bool.false_eq_true, if_false]
      cases hn : s.nkeys.isSome && c.opts.Nkey != "" with
      | true =>
        simp only [if_pos rfl, evalStrategy, evalNkeyStrategy]
        cases hm : mapFind (s.nkeys.getD []) c.opts.Nkey <;> simp [hm]
      | false =>
        simp only [Bool.false_eq_true, if_false]
        cases hu : s.users.isSome && c.opts.Username != "" with
        | true =>
          simp only [if_pos rfl, evalStrategy, evalUserStrategy]
          cases hm : mapFind (s.users.getD []) c.opts.Username with
          | none => simp [hm]
          | some user =>
            simp only [hm]
            cases hcp : comparePasswords cr.bcryptCompare user.Password c.opts.Password <;>
              simp [hcp]
        | false =>
          simp only [Bool.false_eq_true, if_false]
          cases ht : s.opts.Authorization != "" with
          | true => simp [evalStrategy, evalTokenStrategy]
          | false =>
            simp only [Bool.false_eq_true, if_false]
            cases hup : s.opts.Username != "" with
            | true =>
              simp only [if_pos rfl, evalStrategy, evalUserPassStrategy, ite_true]
              by_cases hx : (s.opts.Username != c.opts.Username) = true
              · simp [hx]
              · simp [hx]
            | false => simp [evalStrategy]

/-- Claim C1: `isClientAuthorized` consults exactly one authentication
strategy per decision, chosen by the fixed priority chain custom
callback, then nkey, then per-user table, then shared token, then shared
username/password (`clientAuthStrategy`), and the result is that single
strategy's evaluation on its own inputs (`evalStrategy`); in particular,
when both an nkey and a user table are configured and the connection
presents both an nkey and a username, the nkey strategy is selected and
the decision is a function of the nkey claim, signature and nonce alone
(unchanged under any variation of the other presented credentials). -/
theorem isClientAuthorized_strategy_exclusive {K : Type} (cr : Crypto K)
    (s : Server) (c : client) :
    (isClientAuthorized cr s c).1 = evalStrategy cr s c (clientAuthStrategy s c) ∧
    (s.opts.CustomClientAuthentication = none → s.infoAuthRequired = true →
     s.nkeys.isSome = true → s.users.isSome = true →
     c.opts.Nkey ≠ "" → c.opts.Username ≠ "" →
     clientAuthStrategy s c = .nkeyStrategy ∧
     ∀ c' : client, c'.opts.Nkey = c.opts.Nkey → c'.opts.Sig = c.opts.Sig →
       c'.nonce = c.nonce →
       (isClientAuthorized cr s c').1 = (isClientAuthorized cr s c).1) := by
  refine ⟨isClientAuthorized_eq_evalStrategy cr s c, ?_⟩
  intro hcust har hn _hu hnk _hun
  have hstrat : clientAuthStrategy s c = .nkeyStrategy := by
    unfold clientAuthStrategy
    simp [hcust, har, hn, bne, beq_false_of_ne hnk]
  refine ⟨hstrat, ?_⟩
  intro c' he1 he2 he3
  have hstrat' : clientAuthStrategy s c' = .nkeyStrategy := by
    unfold clientAuthStrategy
    simp [hcust, har, hn, bne, he1, beq_false_of_ne hnk]
  rw [isClientAuthorized_eq_evalStrategy cr s c, isClientAuthorized_eq_evalStrategy cr s c',
    hstrat, hstrat']
  simp only [evalStrategy, he1, he2, he3]

/-- Claim C2: with nkey identities configured and an nkey claim
presented, `isClientAuthorized` accepts iff the claimed key is known, a
signature was presented, the signature base64-decodes, the public key
decodes, and the signature verifies over the exact nonce bytes issued to
that connection; every decode or verification failure is a plain `false`
(all functions involved are total, so no exception can escape). -/
theorem isClientAuthorized_nkey_characterization {K : Type} (cr : Crypto K)
    (s : Server) (c : client) (m : List (String × NkeyUser))
    (h1 : s.opts.CustomClientAuthentication = none)
    (h2 : s.infoAuthRequired = true)
    (h3 : s.nkeys = some m)
    (h4 : c.opts.Nkey ≠ "") :
    (isClientAuthorized cr s c).1 = true ↔
      ((mapFind m c.opts.Nkey).isSome = true ∧ c.opts.Sig ≠ "" ∧
       ∃ sig, cr.base64Decode c.opts.Sig = some sig ∧
         ∃ pub, cr.fromPublicKey c.opts.Nkey = some pub ∧
           cr.verify pub c.nonce sig = true) := by
  unfold isClientAuthorized
  rw [h1]
  simp only [h2, Bool.not_true, Bool.false_eq_true, if_false, h3]
  rw [if_pos (by simp [bne, beq_false_of_ne h4])]
  simp only [Option.getD_some]
  cases hm : mapFind m c.opts.Nkey with
  | none => simp [hm]
  | some nk =>
    simp only [hm, Option.isSome_some, true_and]
    unfold verifyNkeySig
    by_cases hsig : c.opts.Sig = ""
    · simp [hsig]
    · rw [if_neg (by simp [hsig])]
      simp only [ne_eq, hsig, not_false_eq_true, true_and]
      cases hd : cr.base64Decode c.opts.Sig with
      | none => simp [hd]
      | some sig =>
        simp only [hd]
        cases hp : cr.fromPublicKey c.opts.Nkey with
        | none => simp
        | some pub => simp

/-- Claim C4 (amended): whenever `isClientAuthorized` accepts via the
per-user branch, a deep-cloned copy of the matched record's
PermissionSet is attached to the connection via `RegisterUser` before
the call returns.  (The public-key branch of this code attaches nothing;
see the counterexample theorem.) -/
theorem userTable_branch_attaches_cloned_permissions {K : Type} (cr : Crypto K)
    (s : Server) (c : client) (m : List (String × User)) (user : User)
    (h1 : s.opts.CustomClientAuthentication = none)
    (h2 : s.infoAuthRequired = true)
    (h3 : (s.nkeys.isSome && c.opts.Nkey != "") = false)
    (h4 : s.users = some m)
    (h5 : c.opts.Username ≠ "")
    (h6 : mapFind m c.opts.Username = some user)
    (h7 : comparePasswords cr.bcryptCompare user.Password c.opts.Password = true) :
    (isClientAuthorized cr s c).1 = true ∧
    (isClientAuthorized cr s c).2.perms = Permissions.clone user.Permissions := by
  unfold isClientAuthorized
  rw [h1]
  simp only [h2, Bool.not_true, Bool.false_eq_true, if_false, h3]
  rw [if_pos (by simp [h4, bne, beq_false_of_ne h5])]
  simp only [h4, Option.getD_some, h6, h7, if_true]
  exact ⟨trivial, rfl⟩

/-- Witness for the amended C4: a concrete one-user table where `alice`
authenticates and the clone of her record's permissions ends up on the
connection. -/
theorem userTable_branch_attaches_cloned_permissions_witness :
    (isClientAuthorized
        (⟨fun _ => none, fun _ => none, fun _ _ _ => false, fun a b => a == b⟩ : Crypto Nat)
        { opts := {}, nkeys := none, infoAuthRequired := true,
          users := some [("alice",
            { Username := "alice", Password := "pw",
              Permissions := some { Publish := some { Allow := some ["a.b"], Deny := none },
                                    Subscribe := none } })] }
        { opts := { Username := "alice", Password := "pw" } }).1 = true ∧
    (isClientAuthorized
        (⟨fun _ => none, fun _ => none, fun _ _ _ => false, fun a b => a == b⟩ : Crypto Nat)
        { opts := {}, nkeys := none, infoAuthRequired := true,
          users := some [("alice",
            { Username := "alice", Password := "pw",
              Permissions := some { Publish := some { Allow := some ["a.b"], Deny := none },
                                    Subscribe := none } })] }
        { opts := { Username := "alice", Password := "pw" } }).2.perms =
      Permissions.clone (some { Publish := some { Allow := some ["a.b"], Deny := none },
                                Subscribe := none }) :=
  userTable_branch_attaches_cloned_permissions _ _ _ _
    { Username := "alice", Password := "pw",
      Permissions := some { Publish := some { Allow := some ["a.b"], Deny := none },
                            Subscribe := none } }
    rfl rfl (by decide) rfl (by decide) (by decide) (by decide)

/-- Counterexample to C4 as stated: a connection accepted through the
public-key branch (nkey known, signature accepted by the oracle) leaves
the connection's permission set `nil`, even though the matched nkey
record carries a non-nil PermissionSet whose clone is non-nil; the
public-key branch attaches nothing. -/
theorem nkey_branch_attaches_no_permissions :
    (isClientAuthorized
        (⟨fun _ => some [7], fun _ => some 0, fun _ _ _ => true, fun a b => a == b⟩ : Crypto Nat)
        { opts := {}, users := none, infoAuthRequired := true,
          nkeys := some [("NK",
            { Nkey := "NK",
              Permissions := some { Publish := none,
                                    Subscribe := some { Allow := some ["x"], Deny := none } } })] }
        { opts := { Nkey := "NK", Sig := "zz" }, nonce := [1, 2] }).1 = true ∧
    clientAuthStrategy
        { opts := {}, users := none, infoAuthRequired := true,
          nkeys := some [("NK",
            { Nkey := "NK",
              Permissions := some { Publish := none,
                                    Subscribe := some { Allow := some ["x"], Deny := none } } })] }
        { opts := { Nkey := "NK", Sig := "zz" }, nonce := [1, 2] } = .nkeyStrategy ∧
    Permissions.clone (some { Publish := none,
                              Subscribe := some { Allow := some ["x"], Deny := none } }) ≠ none ∧
    (isClientAuthorized
        (⟨fun _ => some [7], fun _ => some 0, fun _ _ _ => true, fun a b => a == b⟩ : Crypto Nat)
        { opts := {}, users := none, infoAuthRequired := true,
          nkeys := some [("NK",
            { Nkey := "NK",
              Permissions := some { Publish := none,
                                    Subscribe := some { Allow := some ["x"], Deny := none } } })] }
        { opts := { Nkey := "NK", Sig := "zz" }, nonce := [1, 2] }).2.perms = none := by
  refine ⟨rfl, by decide, by decide, rfl⟩

/-- One sweep iteration never touches the bound permission set. -/
theorem sweepStep_perms (m : String → String → Bool) (st : SweepState)
    (e : String × subscription) : (sweepStep m st e).perms = st.perms := by
  unfold sweepStep
  split <;> rfl

/-- Characterization of the sweep loop: folding `sweepStep` over a
snapshot keeps the permissions, filters the failing sids out of the
subscription map, erases each failing subscription from the routing
index, and appends one (subject, sid) notice per failing snapshot
entry. -/
theorem sweep_foldl_spec (m : String → String → Bool)
    (l : List (String × subscription)) (acc : SweepState) :
    (l.foldl (sweepStep m) acc).perms = acc.perms ∧
    (l.foldl (sweepStep m) acc).subs = acc.subs.filter
      (fun e2 => !((l.filter (fun e => !canSubscribe m acc.perms e.2.subject)).any
        (fun e => e2.1 == e.1))) ∧
    (l.foldl (sweepStep m) acc).sl =
      (l.filter (fun e => !canSubscribe m acc.perms e.2.subject)).foldl
        (fun sl2 e => sl2.erase e.2) acc.sl ∧
    (l.foldl (sweepStep m) acc).errs = acc.errs ++
      (l.filter (fun e => !canSubscribe m acc.perms e.2.subject)).map
        (fun e => (e.2.subject, e.2.sid)) := by
  induction l generalizing acc with
  | nil => simp
  | cons e l ih =>
    cases hcs : canSubscribe m acc.perms e.2.subject with
    | true =>
      have hstep : sweepStep m acc e = acc := by
        unfold sweepStep
        rw [if_pos hcs]
      simp only [List.foldl_cons, hstep, List.filter_cons, hcs, Bool.not_true,
        Bool.false_eq_true, if_false]
      exact ih acc
    | false =>
      have hstep : sweepStep m acc e =
          { acc with
            subs := acc.subs.filter (fun e2 => e2.1 != e.1)
            sl := acc.sl.erase e.2
            errs := acc.errs ++ [(e.2.subject, e.2.sid)] } := by
        unfold sweepStep
        rw [if_neg (by simp [hcs])]
      obtain ⟨i1, i2, i3, i4⟩ := ih (sweepStep m acc e)
      have hperm : (sweepStep m acc e).perms = acc.perms := sweepStep_perms m acc e
      simp only [List.foldl_cons, List.filter_cons, hcs, Bool.not_false, if_pos]
      refine ⟨i1.trans hperm, ?_, ?_, ?_⟩
      · rw [i2, hperm, hstep]
        simp only [List.filter_filter]
        refine List.filter_congr ?_
        intro x _
        simp only [List.any_cons, Bool.not_or, bne]
        exact Bool.and_comm _ _
      · rw [i3, hperm, hstep]
      · rw [i4, hperm, hstep]
        simp only [List.map_cons, List.append_assoc, List.singleton_append]

/-- Folding `erase` over a duplicate-free base list removes exactly the
erased elements. -/
theorem foldl_erase_eq_filter (ds : List subscription) (base : List subscription)
    (h : base.Nodup) :
    ds.foldl (fun l2 d => l2.erase d) base =
      base.filter (fun x => !ds.any (fun d => x == d)) := by
  induction ds generalizing base with
  | nil => simp
  | cons d ds ih =>
    rw [List.foldl_cons, ih (base.erase d) (h.erase d),
      List.Nodup.erase_eq_filter h d, List.filter_filter]
    refine List.filter_congr ?_
    intro x _
    simp only [List.any_cons, Bool.not_or, bne]
    exact Bool.and_comm _ _

/-- A sweep over a snapshot in which every entry still passes
`canSubscribe` is the identity. -/
theorem sweep_foldl_id (m : String → String → Bool)
    (l : List (String × subscription)) (acc : SweepState)
    (h : ∀ e ∈ l, canSubscribe m acc.perms e.2.subject = true) :
    l.foldl (sweepStep m) acc = acc := by
  induction l with
  | nil => rfl
  | cons e l ih =>
    have hstep : sweepStep m acc e = acc := by
      unfold sweepStep
      rw [if_pos (h e (by simp))]
    rw [List.foldl_cons, hstep]
    exact ih (fun e2 he2 => h e2 (by simp [he2]))

/-- Claim C6: with a bound permission set, `removeUnauthorizedSubs`
removes exactly the subscriptions whose subject fails `canSubscribe` —
each removed from the connection's own subscription map and erased from
the shared routing index — and sends exactly one permissions-violation
notice per removed subscription, carrying that subscription's subject
and sid; a second sweep with unchanged permissions is a no-op (the sweep
is idempotent). -/
theorem removeUnauthorizedSubs_spec (m : String → String → Bool)
    (st : SweepState) (p : Permissions)
    (hp : st.perms = some p)
    (hkeys : (st.subs.map (·.1)).Nodup)
    (hsl : st.sl.Nodup) :
    (removeUnauthorizedSubs m st).subs =
      st.subs.filter (fun e => canSubscribe m st.perms e.2.subject) ∧
    (removeUnauthorizedSubs m st).sl =
      st.sl.filter (fun x => !((st.subs.filter
        (fun e => !canSubscribe m st.perms e.2.subject)).map (·.2)).any
          (fun d => x == d)) ∧
    (removeUnauthorizedSubs m st).errs = st.errs ++
      (st.subs.filter (fun e => !canSubscribe m st.perms e.2.subject)).map
        (fun e => (e.2.subject, e.2.sid)) ∧
    removeUnauthorizedSubs m (removeUnauthorizedSubs m st) =
      removeUnauthorizedSubs m st := by
  have hrm : removeUnauthorizedSubs m st = st.subs.foldl (sweepStep m) st := by
    unfold removeUnauthorizedSubs
    rw [hp]
  obtain ⟨f1, f2, f3, f4⟩ := sweep_foldl_spec m st.subs st
  have hinj : ∀ a ∈ st.subs, ∀ b ∈ st.subs, a.1 = b.1 → a = b := by
    intro a ha b hb hab
    exact List.inj_on_of_nodup_map hkeys ha hb hab
  have hsubs : (removeUnauthorizedSubs m st).subs =
      st.subs.filter (fun e => canSubscribe m st.perms e.2.subject) := by
    rw [hrm, f2]
    refine List.filter_congr ?_
    intro x hx
    cases hc : canSubscribe m st.perms x.2.subject with
    | true =>
      simp only [Bool.not_eq_true']
      rw [List.any_eq_false]
      intro d hd
      simp only [List.mem_filter] at hd
      simp only [beq_iff_eq]
      intro hxd
      have hde : d = x := (hinj x hx d hd.1 hxd).symm
      rw [hde, hc] at hd
      simp at hd
    | false =>
      simp only [Bool.not_eq_false']
      rw [List.any_eq_true]
      exact ⟨x, List.mem_filter.mpr ⟨hx, by simp [hc]⟩, by simp⟩
  refine ⟨hsubs, ?_, by rw [hrm]; exact f4, ?_⟩
  · rw [hrm, f3, ← List.foldl_map, foldl_erase_eq_filter _ _ hsl]
  · have hperm2 : (removeUnauthorizedSubs m st).perms = some p := by
      rw [hrm, f1, hp]
    have hall : ∀ e ∈ (removeUnauthorizedSubs m st).subs,
        canSubscribe m (removeUnauthorizedSubs m st).perms e.2.subject = true := by
      intro e he
      rw [hsubs] at he
      rw [hperm2, ← hp]
      exact (List.mem_filter.mp he).2
    set st2 := removeUnauthorizedSubs m st with hst2
    have hx : removeUnauthorizedSubs m st2 = st2.subs.foldl (sweepStep m) st2 := by
      unfold removeUnauthorizedSubs
      rw [hperm2]
    rw [hx]
    exact sweep_foldl_id m _ _ hall

/-- Witness for C6 at a concrete two-subscription state: the
subscription on subject `b` fails the allow list `["a"]`, is removed
from the map, and produces the single notice `("b", "2")`. -/
theorem removeUnauthorizedSubs_spec_witness :
    (removeUnauthorizedSubs (fun pat subj => pat == subj)
      { perms := some { Publish := none,
                        Subscribe := some { Allow := some ["a"], Deny := none } },
        subs := [("1", { subject := "a", sid := "1" }), ("2", { subject := "b", sid := "2" })],
        sl := [{ subject := "a", sid := "1" }, { subject := "b", sid := "2" }],
        errs := [] }).subs = [("1", { subject := "a", sid := "1" })] ∧
    (removeUnauthorizedSubs (fun pat subj => pat == subj)
      { perms := some { Publish := none,
                        Subscribe := some { Allow := some ["a"], Deny := none } },
        subs := [("1", { subject := "a", sid := "1" }), ("2", { subject := "b", sid := "2" })],
        sl := [{ subject := "a", sid := "1" }, { subject := "b", sid := "2" }],
        errs := [] }).errs = [("b", "2")] :=
  ⟨(removeUnauthorizedSubs_spec (fun pat subj => pat == subj)
      { perms := some { Publish := none,
                        Subscribe := some { Allow := some ["a"], Deny := none } },
        subs := [("1", { subject := "a", sid := "1" }), ("2", { subject := "b", sid := "2" })],
        sl := [{ subject := "a", sid := "1" }, { subject := "b", sid := "2" }],
        errs := [] }
      { Publish := none, Subscribe := some { Allow := some ["a"], Deny := none } }
      rfl (by decide) (by decide)).1,
   (removeUnauthorizedSubs_spec (fun pat subj => pat == subj)
      { perms := some { Publish := none,
                        Subscribe := some { Allow := some ["a"], Deny := none } },
        subs := [("1", { subject := "a", sid := "1" }), ("2", { subject := "b", sid := "2" })],
        sl := [{ subject := "a", sid := "1" }, { subject := "b", sid := "2" }],
        errs := [] }
      { Publish := none, Subscribe := some { Allow := some ["a"], Deny := none } }
      rfl (by decide) (by decide)).2.2.1⟩

/-- Witness for C1 at a concrete mixed configuration (both an nkey table
and a user table; the connection presents both an nkey and a username):
the nkey strategy is the one selected, and the dispatch equation holds. -/
theorem isClientAuthorized_strategy_exclusive_witness :
    clientAuthStrategy
        { opts := {}, infoAuthRequired := true,
          nkeys := some [("NK", { Nkey := "NK", Permissions := none })],
          users := some [("u", { Username := "u", Password := "p", Permissions := none })] }
        { opts := { Nkey := "NK", Username := "u" } } = .nkeyStrategy ∧
    (isClientAuthorized
        (⟨fun _ => none, fun _ => none, fun _ _ _ => false, fun a b => a == b⟩ : Crypto Nat)
        { opts := {}, infoAuthRequired := true,
          nkeys := some [("NK", { Nkey := "NK", Permissions := none })],
          users := some [("u", { Username := "u", Password := "p", Permissions := none })] }
        { opts := { Nkey := "NK", Username := "u" } }).1 =
      evalStrategy
        (⟨fun _ => none, fun _ => none, fun _ _ _ => false, fun a b => a == b⟩ : Crypto Nat)
        { opts := {}, infoAuthRequired := true,
          nkeys := some [("NK", { Nkey := "NK", Permissions := none })],
          users := some [("u", { Username := "u", Password := "p", Permissions := none })] }
        { opts := { Nkey := "NK", Username := "u" } }
        (clientAuthStrategy
          { opts := {}, infoAuthRequired := true,
            nkeys := some [("NK", { Nkey := "NK", Permissions := none })],
            users := some [("u", { Username := "u", Password := "p", Permissions := none })] }
          { opts := { Nkey := "NK", Username := "u" } }) :=
  ⟨((isClientAuthorized_strategy_exclusive
      (⟨fun _ => none, fun _ => none, fun _ _ _ => false, fun a b => a == b⟩ : Crypto Nat)
      { opts := {}, infoAuthRequired := true,
        nkeys := some [("NK", { Nkey := "NK", Permissions := none })],
        users := some [("u", { Username := "u", Password := "p", Permissions := none })] }
      { opts := { Nkey := "NK", Username := "u" } }).2
      rfl rfl rfl rfl (by decide) (by decide)).1,
   (isClientAuthorized_strategy_exclusive
      (⟨fun _ => none, fun _ => none, fun _ _ _ => false, fun a b => a == b⟩ : Crypto Nat)
      { opts := {}, infoAuthRequired := true,
        nkeys := some [("NK", { Nkey := "NK", Permissions := none })],
        users := some [("u", { Username := "u", Password := "p", Permissions := none })] }
      { opts := { Nkey := "NK", Username := "u" } }).1⟩

/-- Witness for C2 at a concrete accepting instance: known key,
signature present, decode oracles succeed, verification succeeds. -/
theorem isClientAuthorized_nkey_characterization_witness :
    (isClientAuthorized
      (⟨fun _ => some [7], fun _ => some 5, fun _ _ _ => true, fun a b => a == b⟩ : Crypto Nat)
      { opts := {}, users := none, infoAuthRequired := true,
        nkeys := some [("NK", { Nkey := "NK", Permissions := none })] }
      { opts := { Nkey := "NK", Sig := "zz" }, nonce := [1] }).1 = true :=
  (isClientAuthorized_nkey_characterization
    (⟨fun _ => some [7], fun _ => some 5, fun _ _ _ => true, fun a b => a == b⟩ : Crypto Nat)
    { opts := {}, users := none, infoAuthRequired := true,
      nkeys := some [("NK", { Nkey := "NK", Permissions := none })] }
    { opts := { Nkey := "NK", Sig := "zz" }, nonce := [1] }
    [("NK", { Nkey := "NK", Permissions := none })]
    rfl rfl rfl (by decide)).mpr
    ⟨by decide, by decide, [7], rfl, 5, rfl, rfl⟩

/-- Witness for C7 at the empty configuration: authentication is off and
an arbitrary credential-free client is accepted. -/
theorem configureAuthorization_authRequired_iff_witness :
    (configureAuthorization { opts := {} }).infoAuthRequired = false ∧
    (isClientAuthorized
      (⟨fun _ => none, fun _ => none, fun _ _ _ => false, fun a b => a == b⟩ : Crypto Nat)
      (configureAuthorization { opts := {} }) {}).1 = true :=
  ⟨rfl, (configureAuthorization_authRequired_iff { opts := {} }).2 rfl Nat
    ⟨fun _ => none, fun _ => none, fun _ _ _ => false, fun a b => a == b⟩ {}⟩

/-- Witness for C8 at a concrete cluster credential pair. -/
theorem isRouterAuthorized_spec_witness :
    ("r" : String) ≠ "" ∧
    (isRouterAuthorized (fun a b => a == b)
        { opts := { Cluster := { Username := "r", Password := "pw" } } }
        { opts := { Username := "r", Password := "pw" } } = true ↔
      (({ opts := { Username := "r", Password := "pw" } } : client).opts.Username =
        ({ opts := { Cluster := { Username := "r", Password := "pw" } } } : Server).opts.Cluster.Username ∧
       comparePasswords (fun a b => a == b)
         ({ opts := { Cluster := { Username := "r", Password := "pw" } } } : Server).opts.Cluster.Password
         ({ opts := { Username := "r", Password := "pw" } } : client).opts.Password = true)) :=
  ⟨by decide,
   ((isRouterAuthorized_spec (fun a b => a == b)
      { opts := { Cluster := { Username := "r", Password := "pw" } } }
      { opts := { Username := "r", Password := "pw" } }).2 rfl).2 (by decide)⟩

/-- Witness for C10 at the shared username `u` with empty password. -/
theorem sharedUserPass_empty_password_accepted_witness :
    ("u" : String) ≠ "" ∧
    (isClientAuthorized
      (⟨fun _ => none, fun _ => none, fun _ _ _ => false, fun a b => a == b⟩ : Crypto Nat)
      (configureAuthorization { opts := { Username := "u" } })
      { opts := { Username := "u" } }).1 = true :=
  ⟨by decide,
   (sharedUserPass_empty_password_accepted
      (⟨fun _ => none, fun _ => none, fun _ _ _ => false, fun a b => a == b⟩ : Crypto Nat)
      { opts := { Username := "u" } } { opts := { Username := "u" } }
      rfl rfl rfl (by decide) rfl rfl rfl rfl rfl rfl).2⟩

end NatsAuth

namespace HeapModel

/-- Reads at the owned references determine a subject permission's
readout. -/
theorem readSP_congr (st1 st2 : Store) (p : Option SubjectPermission)
    (h : ∀ r ∈ refsSP p, st1.read r = st2.read r) :
    readSP st1 p = readSP st2 p := by
  cases p with
  | none => rfl
  | some sp =>
    rcases sp with ⟨al, de⟩
    cases al <;> cases de <;> simp_all [readSP, refsSP]

/-- Reads at the owned references determine a permission set's
readout. -/
theorem readPerms_congr (st1 st2 : Store) (p : Option Permissions)
    (h : ∀ r ∈ refsPerms p, st1.read r = st2.read r) :
    readPerms st1 p = readPerms st2 p := by
  cases p with
  | none => rfl
  | some pp =>
    have h1 : ∀ r ∈ refsSP pp.Publish, st1.read r = st2.read r := by
      intro r hr; exact h r (by simp [refsPerms, hr])
    have h2 : ∀ r ∈ refsSP pp.Subscribe, st1.read r = st2.read r := by
      intro r hr; exact h r (by simp [refsPerms, hr])
    simp [readPerms, readSP_congr st1 st2 _ h1, readSP_congr st1 st2 _ h2]

/-- `SubjectPermission.clone` allocates only fresh cells: the frontier
grows, old cells keep their contents, the clone's readout equals the
original's, and every reference the clone owns is fresh (at or above the
old frontier, below the new one). -/
theorem sp_clone_spec (st : Store) (p : Option SubjectPermission)
    (h : ∀ r ∈ refsSP p, r < st.next) :
    st.next ≤ (SubjectPermission.clone st p).1.next ∧
    (∀ r, r < st.next → (SubjectPermission.clone st p).1.read r = st.read r) ∧
    readSP (SubjectPermission.clone st p).1 (SubjectPermission.clone st p).2 = readSP st p ∧
    (∀ r ∈ refsSP (SubjectPermission.clone st p).2,
      st.next ≤ r ∧ r < (SubjectPermission.clone st p).1.next) := by
  cases p with
  | none => simp [SubjectPermission.clone, readSP, refsSP]
  | some sp =>
    rcases sp with ⟨al, de⟩
    cases al with
    | none =>
      cases de with
      | none => simp [SubjectPermission.clone, readSP, refsSP]
      | some rd =>
        have hrd : rd < st.next := h rd (by simp [refsSP])
        refine ⟨?_, ?_, ?_, ?_⟩
        · simp only [SubjectPermission.clone, Store.alloc]
          omega
        · intro r hr
          have hne : ¬ (r = st.next) := by omega
          simp only [SubjectPermission.clone, Store.alloc, Store.read]
          rw [if_neg hne]
        · simp [SubjectPermission.clone, Store.alloc, Store.read, readSP]
        · intro r hr
          simp only [SubjectPermission.clone, refsSP, Option.toList_some,
            Option.toList_none, List.nil_append, List.mem_singleton] at hr
          subst hr
          simp only [SubjectPermission.clone, Store.alloc]
          omega
    | some ra =>
      have hra : ra < st.next := h ra (by simp [refsSP])
      cases de with
      | none =>
        refine ⟨?_, ?_, ?_, ?_⟩
        · simp only [SubjectPermission.clone, Store.alloc]
          omega
        · intro r hr
          have hne : ¬ (r = st.next) := by omega
          simp only [SubjectPermission.clone, Store.alloc, Store.read]
          rw [if_neg hne]
        · simp [SubjectPermission.clone, Store.alloc, Store.read, readSP]
        · intro r hr
          simp only [SubjectPermission.clone, refsSP, Option.toList_some,
            Option.toList_none, List.append_nil, List.mem_singleton] at hr
          subst hr
          simp only [SubjectPermission.clone, Store.alloc]
          omega
      | some rd =>
        have hrd : rd < st.next := h rd (by simp [refsSP])
        refine ⟨?_, ?_, ?_, ?_⟩
        · simp only [SubjectPermission.clone, Store.alloc]
          omega
        · intro r hr
          have hne1 : ¬ (r = st.next + 1) := by omega
          have hne2 : ¬ (r = st.next) := by omega
          simp only [SubjectPermission.clone, Store.alloc, Store.read]
          rw [if_neg hne1, if_neg hne2]
        · have hne : ¬ (st.next = st.next + 1) := by omega
          have hrdne : ¬ (rd = st.next) := by omega
          simp [SubjectPermission.clone, Store.alloc, Store.read, readSP, hne, hrdne]
        · intro r hr
          simp only [SubjectPermission.clone, refsSP, Option.toList_some,
            Store.alloc, List.mem_append, List.mem_singleton] at hr
          rcases hr with hr | hr <;>
            (subst hr; simp only [SubjectPermission.clone, Store.alloc]; omega)

/-- `Permissions.clone` unfolded as two successive
`SubjectPermission.clone` calls (the nil branches coincide). -/
theorem perms_clone_some (st : Store) (pp : Permissions) :
    Permissions.clone st (some pp) =
      ((SubjectPermission.clone (SubjectPermission.clone st pp.Publish).1 pp.Subscribe).1,
       some { Publish := (SubjectPermission.clone st pp.Publish).2,
              Subscribe :=
                (SubjectPermission.clone (SubjectPermission.clone st pp.Publish).1
                  pp.Subscribe).2 }) := by
  rcases pp with ⟨pb, sb⟩
  cases pb <;> cases sb <;> rfl

/-- `Permissions.clone` allocates only fresh cells: frontier growth, old
cells untouched, equal readout, and every clone-owned reference
fresh. -/
theorem perms_clone_spec (st : Store) (p : Option Permissions)
    (h : validPerms st p) :
    st.next ≤ (Permissions.clone st p).1.next ∧
    (∀ r, r < st.next → (Permissions.clone st p).1.read r = st.read r) ∧
    readPerms (Permissions.clone st p).1 (Permissions.clone st p).2 = readPerms st p ∧
    (∀ r ∈ refsPerms (Permissions.clone st p).2,
      st.next ≤ r ∧ r < (Permissions.clone st p).1.next) := by
  cases p with
  | none => simp [Permissions.clone, readPerms, refsPerms]
  | some pp =>
    rw [perms_clone_some]
    have hP : ∀ r ∈ refsSP pp.Publish, r < st.next := by
      intro r hr; exact h r (by simp [refsPerms, hr])
    obtain ⟨h1, h2, h3, h4⟩ := sp_clone_spec st pp.Publish hP
    have hS : ∀ r ∈ refsSP pp.Subscribe, r < (SubjectPermission.clone st pp.Publish).1.next := by
      intro r hr
      exact lt_of_lt_of_le (h r (by simp [refsPerms, hr])) h1
    obtain ⟨g1, g2, g3, g4⟩ := sp_clone_spec (SubjectPermission.clone st pp.Publish).1
      pp.Subscribe hS
    refine ⟨le_trans h1 g1, ?_, ?_, ?_⟩
    · intro r hr
      rw [g2 r (lt_of_lt_of_le hr h1), h2 r hr]
    · simp only [readPerms]
      congr 1
      congr 1
      · calc readSP (SubjectPermission.clone (SubjectPermission.clone st pp.Publish).1
              pp.Subscribe).1 (SubjectPermission.clone st pp.Publish).2
            = readSP (SubjectPermission.clone st pp.Publish).1
                (SubjectPermission.clone st pp.Publish).2 := by
              refine readSP_congr _ _ _ ?_
              intro r hr
              exact g2 r (h4 r hr).2
          _ = readSP st pp.Publish := h3
      · calc readSP (SubjectPermission.clone (SubjectPermission.clone st pp.Publish).1
              pp.Subscribe).1 (SubjectPermission.clone (SubjectPermission.clone st
              pp.Publish).1 pp.Subscribe).2
            = readSP (SubjectPermission.clone st pp.Publish).1 pp.Subscribe := g3
          _ = readSP st pp.Subscribe := by
              refine readSP_congr _ _ _ ?_
              intro r hr
              exact h2 r (h r (by simp [refsPerms, hr]))
    · intro r hr
      simp only [refsPerms, List.mem_append] at hr
      rcases hr with hr | hr
      · exact ⟨(h4 r hr).1, lt_of_lt_of_le (h4 r hr).2 g1⟩
      · exact ⟨le_trans h1 (g4 r hr).1, (g4 r hr).2⟩

/-- Claim C5: for every valid permission set, `clone` produces a
structurally equal permission set (same readout of every allow and deny
list) that shares no backing storage with the original: every reference
the clone owns is distinct from every reference the original owns, and
writing through any clone-owned reference leaves the original's readout
unchanged, and vice versa. -/
theorem Permissions_clone_no_aliasing (st : Store) (p : Option Permissions)
    (h : validPerms st p) :
    readPerms (Permissions.clone st p).1 (Permissions.clone st p).2 = readPerms st p ∧
    (∀ r ∈ refsPerms (Permissions.clone st p).2, r ∉ refsPerms p) ∧
    (∀ r ∈ refsPerms (Permissions.clone st p).2, ∀ v,
      readPerms ((Permissions.clone st p).1.write r v) p = readPerms st p) ∧
    (∀ r ∈ refsPerms p, ∀ v,
      readPerms ((Permissions.clone st p).1.write r v) (Permissions.clone st p).2 =
        readPerms (Permissions.clone st p).1 (Permissions.clone st p).2) := by
  obtain ⟨h1, h2, h3, h4⟩ := perms_clone_spec st p h
  refine ⟨h3, ?_, ?_, ?_⟩
  · intro r hr hmem
    have ha : st.next ≤ r := (h4 r hr).1
    have hb : r < st.next := h r hmem
    omega
  · intro r hr v
    refine readPerms_congr _ _ _ ?_
    intro r2 hr2
    have ha : r2 < st.next := h r2 hr2
    have hb : st.next ≤ r := (h4 r hr).1
    have hne : ¬ (r2 = r) := by omega
    simp only [Store.write, Store.read]
    rw [if_neg hne]
    exact h2 r2 ha
  · intro r hr v
    refine readPerms_congr _ _ _ ?_
    intro r2 hr2
    have ha : st.next ≤ r2 := (h4 r2 hr2).1
    have hb : r < st.next := h r hr
    have hne : ¬ (r2 = r) := by omega
    simp only [Store.write, Store.read]
    rw [if_neg hne]

/-- Witness for C5 at a concrete two-cell store: the clone's backing
references are disjoint from the original's. -/
theorem Permissions_clone_no_aliasing_witness :
    validPerms { mem := fun _ => [], next := 2 }
      (some { Publish := some { Allow := some 0, Deny := none },
              Subscribe := some { Allow := none, Deny := some 1 } }) ∧
    (∀ r ∈ refsPerms
        (Permissions.clone { mem := fun _ => [], next := 2 }
          (some { Publish := some { Allow := some 0, Deny := none },
                  Subscribe := some { Allow := none, Deny := some 1 } })).2,
      r ∉ refsPerms
        (some { Publish := some { Allow := some 0, Deny := none },
                Subscribe := some { Allow := none, Deny := some 1 } })) :=
  ⟨by decide,
   (Permissions_clone_no_aliasing { mem := fun _ => [], next := 2 }
      (some { Publish := some { Allow := some 0, Deny := none },
              Subscribe := some { Allow := none, Deny := some 1 } })
      (by decide)).2.1⟩

end HeapModel
